import Mathlib

/-!
# Verification of the MSSQL → PostgreSQL statement converter

A shallow embedding of `src/script.py`: identifier normalization
(`clean_identifier`), the type mapper (`extract_type_size`,
`convert_type_with_size`), the INSERT converter (`convert_insert`), the
CREATE-TABLE converter (`convert_create_table`) and the in-batch statement
splitter of `convert_mssql_to_postgresql`.

Strings are modelled as `List Char` internally (Lean `String` is a wrapper
around `List Char`), with Python's `str.lower`/`str.upper`/`str.strip`
modelled on ASCII (all inputs in the program and the scenarios are ASCII).
Each Python regular expression used by the program is hand-compiled into an
executable matcher that reproduces the `re` module's leftmost-search,
ordered-alternative backtracking semantics for that fixed pattern.
-/

namespace MsPg

/-- ASCII `str.lower` on one character (A–Z ↦ a–z, all else unchanged). -/
def lcChar (c : Char) : Char :=
  if 65 ≤ c.toNat ∧ c.toNat ≤ 90 then Char.ofNat (c.toNat + 32) else c

/-- ASCII `str.upper` on one character (a–z ↦ A–Z, all else unchanged). -/
def ucChar (c : Char) : Char :=
  if 97 ≤ c.toNat ∧ c.toNat ≤ 122 then Char.ofNat (c.toNat - 32) else c

/-- Python `str.lower` (ASCII model). -/
def lowerL (l : List Char) : List Char := l.map lcChar

/-- Python `str.upper` (ASCII model). -/
def upperL (l : List Char) : List Char := l.map ucChar

/-- Python whitespace as stripped by `str.strip()` / matched by `\s` (ASCII). -/
def isPySpace (c : Char) : Bool :=
  c = ' ' || c = '\t' || c = '\n' || c = '\r' || c = '\x0b' || c = '\x0c'

/-- Python `str.strip()` (ASCII whitespace model). -/
def stripL (l : List Char) : List Char :=
  ((l.dropWhile isPySpace).reverse.dropWhile isPySpace).reverse

/-- Python `str.rstrip(',')`. -/
def rstripCommaL (l : List Char) : List Char :=
  (l.reverse.dropWhile (· = ',')).reverse

/-- Case-sensitive prefix test (`pat` a prefix of the text). -/
def isPre : List Char → List Char → Bool
  | [], _ => true
  | _ :: _, [] => false
  | p :: ps, c :: cs => p = c && isPre ps cs

/-- Case-insensitive prefix test, as used by `re.IGNORECASE` literals. -/
def isPreCI : List Char → List Char → Bool
  | [], _ => true
  | _ :: _, [] => false
  | p :: ps, c :: cs => lcChar p = lcChar c && isPreCI ps cs

/-- Python `pat in s` substring test. -/
def hasSub (p : List Char) : List Char → Bool
  | [] => isPre p []
  | c :: cs => isPre p (c :: cs) || hasSub p cs

/-- Python `str.replace(old, new)` (all occurrences, leftmost first),
with fuel bounded by the text length. -/
def replaceAllFuel (old new : List Char) : Nat → List Char → List Char
  | 0, l => l
  | _ + 1, [] => []
  | fuel + 1, c :: cs =>
    if old ≠ [] ∧ isPre old (c :: cs) then
      new ++ replaceAllFuel old new fuel ((c :: cs).drop old.length)
    else
      c :: replaceAllFuel old new fuel cs

/-- Python `str.replace(old, new)`; also the model of
`re.sub(r'\[dbo\]\.', '', ·)`, whose pattern is a literal. -/
def replaceAllL (old new l : List Char) : List Char :=
  replaceAllFuel old new l.length l

/-- `re.sub(r'\[([^\]]+)\]', r'\1', ·)`: leftmost non-overlapping
replacement of each `[xxx]` (xxx nonempty, no `]`) by `xxx`. -/
def bracketSubFuel : Nat → List Char → List Char
  | 0, l => l
  | _ + 1, [] => []
  | fuel + 1, c :: cs =>
    if c = '[' then
      match cs.takeWhile (· ≠ ']'), cs.dropWhile (· ≠ ']') with
      | g₁ :: gs, ']' :: after => (g₁ :: gs) ++ bracketSubFuel fuel after
      | _, _ => c :: bracketSubFuel fuel cs
    else
      c :: bracketSubFuel fuel cs

/-- `re.sub(r'\[([^\]]+)\]', r'\1', ·)` with fuel set to the text length. -/
def bracketSubL (l : List Char) : List Char :=
  bracketSubFuel l.length l

/-- `clean_identifier` from the source: drop every literal `[dbo].`
(case-sensitive), unwrap every `[xxx]`, then `strip().lower()`. -/
def cleanIdentL (identifier : List Char) : List Char :=
  let i₁ := replaceAllL "[dbo].".data [] identifier
  let i₂ := bracketSubL i₁
  lowerL (stripL i₂)

/-- `clean_identifier` on Lean strings. -/
def clean_identifier (identifier : String) : String :=
  ⟨cleanIdentL identifier.data⟩

/-! ## Backtracking combinators

Each hand-compiled pattern enumerates the alternatives of a quantifier in
the order the `re` engine explores them (greedy: longest first; lazy:
shortest first; optional: present first) and commits to the first
alternative whose continuation succeeds. -/

/-- First successful result of `f` over `xs`, in order. -/
def firstSome : List α → (α → Option β) → Option β
  | [], _ => none
  | a :: as, f => (f a) <|> firstSome as f

/-- All splits `(pre, suf)` of `l` with `pre` a run of `p`-characters,
shortest `pre` first (the exploration order of a lazy quantifier). -/
def ascSplits (p : Char → Bool) : List Char → List (List Char × List Char)
  | [] => [([], [])]
  | c :: cs =>
    ([], c :: cs) ::
      (if p c then (ascSplits p cs).map (fun x => (c :: x.1, x.2)) else [])

/-- Splits in greedy order (longest run first). -/
def descSplits (p : Char → Bool) (l : List Char) : List (List Char × List Char) :=
  (ascSplits p l).reverse

/-- Greedy-order splits with a nonempty run (a `+` quantifier). -/
def descSplits1 (p : Char → Bool) (l : List Char) : List (List Char × List Char) :=
  (descSplits p l).filter (fun x => !x.1.isEmpty)

/-- Continuations of an optional literal, present branch first. -/
def optLit (pat l : List Char) : List (List Char) :=
  (if isPre pat l then [l.drop pat.length] else []) ++ [l]

/-- Continuations of an optional case-insensitive literal, present first. -/
def optLitCI (pat l : List Char) : List (List Char) :=
  (if isPreCI pat l then [l.drop pat.length] else []) ++ [l]

/-- `\s+` whose follower cannot start with whitespace: consume the maximal
nonempty run (no other alternative can succeed). -/
def ws1 (l : List Char) : Option (List Char) :=
  match l with
  | c :: cs => if isPySpace c then some ((c :: cs).dropWhile isPySpace) else none
  | [] => none

/-- `re.search`: try a match attempt at every start position, leftmost
position first. -/
def searchL (m : List Char → Option α) : List Char → Option α
  | [] => m []
  | c :: cs => m (c :: cs) <|> searchL m cs

/-- `re.search` of a Bool test. -/
def searchB (m : List Char → Bool) : List Char → Bool
  | [] => m []
  | c :: cs => m (c :: cs) || searchB m cs

/-! ## The individual patterns of the source -/

/-- `re.search(r'^\s*INSERT\s+', line, re.IGNORECASE)` as a test (the `^`
anchors the search at the start of the line). -/
def insertLineTest (l : List Char) : Bool :=
  let r := l.dropWhile isPySpace
  isPreCI "INSERT".data r &&
    (match (r.drop 6).head? with
     | some c => isPySpace c
     | none => false)

/-- One anchored attempt of the INSERT table-name pattern
`INSERT\s+(?:\[dbo\]\.)?(?:\[)?([^\]]+)(?:\])?\s*\(` (`re.IGNORECASE`),
returning group 1.  Note the group class `[^\]]+` may contain whitespace,
so the `\s+` after `INSERT` must backtrack. -/
def tableInsAt (l : List Char) : Option (List Char) :=
  if isPreCI "INSERT".data l then
    firstSome (descSplits1 isPySpace (l.drop 6)) fun x₁ =>
    firstSome (optLitCI "[dbo].".data x₁.2) fun r₂ =>
    firstSome (optLit "[".data r₂) fun r₃ =>
    firstSome (descSplits1 (· ≠ ']') r₃) fun x₄ =>
    firstSome (optLit "]".data x₄.2) fun r₅ =>
    match r₅.dropWhile isPySpace with
    | '(' :: _ => some x₄.1
    | _ => none
  else none

/-- `re.search` of the INSERT table-name pattern. -/
def tableInsRe (l : List Char) : Option (List Char) := searchL tableInsAt l

/-- One attempt of `\((.*?)\)\s*VALUES` (`re.IGNORECASE | re.DOTALL`),
returning the lazy group 1. -/
def colsAt (l : List Char) : Option (List Char) :=
  match l with
  | '(' :: r₀ =>
    firstSome (ascSplits (fun _ => true) r₀) fun x =>
      match x.2 with
      | ')' :: r₂ =>
        if isPreCI "VALUES".data (r₂.dropWhile isPySpace) then some x.1 else none
      | _ => none
  | _ => none

/-- `re.search(r'\((.*?)\)\s*VALUES', ...)`. -/
def colsRe (l : List Char) : Option (List Char) := searchL colsAt l

/-- One attempt of `VALUES\s*\((.*)\)` (`re.IGNORECASE | re.DOTALL`):
the greedy group runs to the **last** `)` of the remaining text. -/
def valsAt (l : List Char) : Option (List Char) :=
  if isPreCI "VALUES".data l then
    match (l.drop 6).dropWhile isPySpace with
    | '(' :: r₁ =>
      firstSome (descSplits (fun _ => true) r₁) fun x =>
        match x.2 with
        | ')' :: _ => some x.1
        | _ => none
    | _ => none
  else none

/-- `re.search(r'VALUES\s*\((.*)\)', ...)`. -/
def valsRe (l : List Char) : Option (List Char) := searchL valsAt l

/-- One attempt of the lazy `VALUES\s*\((.*?)\)`, returning the group and
the rest of the text after the full match (for `re.findall`). -/
def valsLazyAt (l : List Char) : Option (List Char × List Char) :=
  if isPreCI "VALUES".data l then
    match (l.drop 6).dropWhile isPySpace with
    | '(' :: r₁ =>
      firstSome (ascSplits (fun _ => true) r₁) fun x =>
        match x.2 with
        | ')' :: rest => some (x.1, rest)
        | _ => none
    | _ => none
  else none

/-- `re.findall(r'VALUES\s*\((.*?)\)', ...)`: leftmost, non-overlapping
(scanning resumes after each full match).  The pattern cannot match an
empty string, so one unit of fuel per character suffices. -/
def findallFuel : Nat → List Char → List (List Char)
  | 0, _ => []
  | _ + 1, [] => []
  | fuel + 1, c :: cs =>
    match valsLazyAt (c :: cs) with
    | some (g, rest) => g :: findallFuel fuel rest
    | none => findallFuel fuel cs

/-- `re.findall(r'VALUES\s*\((.*?)\)', l, re.IGNORECASE | re.DOTALL)`. -/
def findallVals (l : List Char) : List (List Char) := findallFuel l.length l

/-- ASCII digit. -/
def isDigitC (c : Char) : Bool := 48 ≤ c.toNat && c.toNat ≤ 57

/-- ASCII word character, the `\w` class. -/
def isWordC (c : Char) : Bool :=
  isDigitC c || (65 ≤ c.toNat && c.toNat ≤ 90) || (97 ≤ c.toNat && c.toNat ≤ 122) || c = '_'

/-- `bool(re.match(r'^-?\d+(\.\d+)?$', value))`.  The values tested are
already stripped, so `$` is end of string here. -/
def numTest (l : List Char) : Bool :=
  let l₁ := match l with
    | '-' :: r => r
    | _ => l
  let d := l₁.takeWhile isDigitC
  let r := l₁.dropWhile isDigitC
  if d.isEmpty then false
  else
    match r with
    | [] => true
    | '.' :: r₂ => !(r₂.takeWhile isDigitC).isEmpty && (r₂.dropWhile isDigitC).isEmpty
    | _ => false

/-- The class `[^AS]` under `re.IGNORECASE` excludes `A`, `S`, `a`, `s`. -/
def notAS (c : Char) : Bool := lcChar c ≠ 'a' && lcChar c ≠ 's'

/-- One attempt of `CAST\(([^AS]+)AS\s+([^\)]+)\)` (`re.IGNORECASE`),
returning groups 1 and 2. -/
def castAt (l : List Char) : Option (List Char × List Char) :=
  if isPreCI "CAST(".data l then
    firstSome (descSplits1 notAS (l.drop 5)) fun x₁ =>
      if isPreCI "AS".data x₁.2 then
        firstSome (descSplits1 isPySpace (x₁.2.drop 2)) fun x₂ =>
        firstSome (descSplits1 (· ≠ ')') x₂.2) fun x₃ =>
          match x₃.2 with
          | ')' :: _ => some (x₁.1, x₃.1)
          | _ => none
      else none
  else none

/-- `re.search(r"CAST\(([^AS]+)AS\s+([^\)]+)\)", value, re.IGNORECASE)`. -/
def castRe (l : List Char) : Option (List Char × List Char) := searchL castAt l

/-! ## Type mapper -/

/-- The fixed `TYPE_MAPPING` dictionary, in declaration order (Python
dicts preserve insertion order, which the CREATE-TABLE type loop uses). -/
def TYPE_MAPPING : List (String × String) :=
  [("NVARCHAR", "VARCHAR"),
   ("NTEXT", "TEXT"),
   ("DATETIME", "TIMESTAMP"),
   ("SMALLDATETIME", "TIMESTAMP"),
   ("UNIQUEIDENTIFIER", "UUID"),
   ("MONEY", "DECIMAL(19,4)"),
   ("SMALLMONEY", "DECIMAL(10,4)"),
   ("IMAGE", "BYTEA"),
   ("BIT", "BOOLEAN"),
   ("TINYINT", "SMALLINT"),
   ("REAL", "REAL"),
   ("FLOAT", "DOUBLE PRECISION"),
   ("VARBINARY", "BYTEA"),
   ("BINARY", "BYTEA"),
   ("TIMESTAMP", "BYTEA")]

/-- `TYPE_MAPPING[k]` / `TYPE_MAPPING.get(k, ...)` lookup. -/
def lookupTM (k : String) : Option String :=
  (TYPE_MAPPING.find? (fun p => p.1 == k)).map (·.2)

/-- One attempt of `(\w+)\s*\((\d+(?:,\s*\d+)?)\)`, returning groups 1
and 2 (group 2 is the raw captured text, e.g. `19,4` or `19, 4`). -/
def extractAt (l : List Char) : Option (List Char × List Char) :=
  firstSome (descSplits1 isWordC l) fun x₁ =>
    match x₁.2.dropWhile isPySpace with
    | '(' :: r₂ =>
      firstSome (descSplits1 isDigitC r₂) fun x₂ =>
        (match x₂.2 with
         | ',' :: r₄ =>
           let sp := r₄.takeWhile isPySpace
           firstSome (descSplits1 isDigitC (r₄.dropWhile isPySpace)) fun x₃ =>
             match x₃.2 with
             | ')' :: _ => some (x₁.1, x₂.1 ++ ',' :: (sp ++ x₃.1))
             | _ => none
         | _ => none) <|>
        (match x₂.2 with
         | ')' :: _ => some (x₁.1, x₂.1)
         | _ => none)
    | _ => none

/-- `extract_type_size` from the source: search the pattern; on a match
return `(base.upper(), size)`, otherwise `(data_type.upper(), None)`. -/
def extract_type_size (data_type : String) : String × Option String :=
  match searchL extractAt data_type.data with
  | some x => (⟨upperL x.1⟩, some ⟨x.2⟩)
  | none => (⟨upperL data_type.data⟩, none)

/-- `convert_type_with_size` from the source. -/
def convert_type_with_size (mssql_type : String) : String :=
  let bs := extract_type_size mssql_type
  match lookupTM bs.1 with
  | some pg_type =>
    if pg_type.data.contains '(' || bs.2.isNone then pg_type
    else pg_type ++ "(" ++ bs.2.getD "" ++ ")"
  | none =>
    match bs.2 with
    | some s => ⟨lowerL bs.1.data⟩ ++ "(" ++ s ++ ")"
    | none => ⟨lowerL mssql_type.data⟩

/-! ## INSERT converter -/

/-- Warnings recorded through `logger.warning` during INSERT conversion. -/
inductive Warn where
  | noInsert
  | tableParse
  | columnsParse
  | valuesParse
  | countMismatch
  deriving DecidableEq

/-- The quote- and paren-aware field scanner of `convert_insert`
(lines 128–156): a comma splits only at bracket depth 0 outside a
quoted string; fields are stripped; a nonempty tail is appended. -/
def scanFieldsGo : List Char → List Char → Int → Bool → Option Char →
    List (List Char) → List (List Char)
  | [], cur, _, _, _, acc =>
    acc ++ (if cur ≠ [] then [stripL cur] else [])
  | c :: cs, cur, bc, inS, sc, acc =>
    if (c = '\'' || c = '"') && (sc = none || some c = sc) then
      if !inS then scanFieldsGo cs (cur ++ [c]) bc true (some c) acc
      else scanFieldsGo cs (cur ++ [c]) bc false none acc
    else if c = '(' && !inS then scanFieldsGo cs (cur ++ [c]) (bc + 1) inS sc acc
    else if c = ')' && !inS then scanFieldsGo cs (cur ++ [c]) (bc - 1) inS sc acc
    else if c = ',' && bc = 0 && !inS then scanFieldsGo cs [] bc inS sc (acc ++ [stripL cur])
    else scanFieldsGo cs (cur ++ [c]) bc inS sc acc

/-- The field scanner applied to a VALUES body. -/
def scanFields (l : List Char) : List (List Char) :=
  scanFieldsGo l [] 0 false none []

/-- One iteration of the literal-conversion loop (lines 235–255, without
the initial `strip`): `NULL` and numbers unchanged, `N'...'` loses its
prefix, a field containing `CAST` is rewritten to `value::type` when the
CAST pattern matches and is otherwise dropped (`none`), anything else is
kept as is. -/
def processOneValue (value : List Char) : Option (List Char) :=
  if upperL value = "NULL".data then some ("NULL".data)
  else if numTest value then some value
  else if isPre "N'".data value then some (value.drop 1)
  else if hasSub "CAST".data (upperL value) then
    (castRe value).map fun x =>
      let cast_value := stripL x.1
      let cast_type := stripL x.2
      let pg_type := (lookupTM ⟨upperL cast_type⟩).getD ⟨lowerL cast_type⟩
      cast_value ++ ':' :: ':' :: pg_type.data
  else some value

/-- The literal-conversion loop of the single-tuple path (with the
`value = value.strip()` at its head). -/
def processValues (values : List (List Char)) : List (List Char) :=
  values.filterMap (fun v => processOneValue (stripL v))

/-- The literal-conversion loop of the multi-tuple branch (lines
199–214), which does not re-strip its items. -/
def processValuesMulti (values : List (List Char)) : List (List Char) :=
  values.filterMap processOneValue

/-- `', '.join`. -/
def joinCS (xs : List (List Char)) : List Char :=
  match xs with
  | [] => []
  | x :: rest => x ++ (rest.map (fun y => ',' :: ' ' :: y)).flatten

/-- `f"INSERT INTO {table_name} ({columns_str}) VALUES ({values_str});"`. -/
def mkInsert (table : List Char) (cols vals : List (List Char)) : List Char :=
  "INSERT INTO ".data ++ table ++ " (".data ++ joinCS cols ++
    ") VALUES (".data ++ joinCS vals ++ ");".data

/-- Python `str.split(',')` (keeps empty pieces). -/
def splitComma (l : List Char) : List (List Char) :=
  match l with
  | [] => [[]]
  | c :: cs =>
    let rest := splitComma cs
    if c = ',' then [] :: rest
    else
      match rest with
      | r :: rs => (c :: r) :: rs
      | [] => [[c]]

/-- The count-mismatch repair (lines 227–230): pad with `NULL` literals
when short, truncate when long. -/
def repairValues (k : Nat) (values : List (List Char)) : List (List Char) :=
  if values.length < k then values ++ List.replicate (k - values.length) ("NULL".data)
  else if values.length > k then values.take k
  else values

/-- The multi-tuple emission (lines 163–219): convert each `VALUES (...)`
group and emit one INSERT per group whose converted tuple matches the
column count; other groups are dropped. -/
def multiEmit (table : List Char) (cols : List (List Char))
    (groups : List (List Char)) : List (List Char) :=
  groups.filterMap fun value_set =>
    let pv := processValuesMulti (scanFields value_set)
    if pv.length = cols.length then some (mkInsert table cols pv) else none

/-- The body of the per-INSERT loop of `convert_insert` (lines 101–261),
returning the list of emitted statements and the recorded warnings. -/
def processInsertStmt (insert_stmt : List Char) : List (List Char) × List Warn :=
  match tableInsRe insert_stmt with
  | none => ([], [.tableParse])
  | some tg =>
    let table_name := cleanIdentL tg
    match colsRe insert_stmt with
    | none => ([], [.columnsParse])
    | some colsStr =>
      let columns := (splitComma colsStr).map cleanIdentL
      match valsRe insert_stmt with
      | none => ([], [.valuesParse])
      | some values_str =>
        let values := scanFields values_str
        if values.length = columns.length then
          ([mkInsert table_name columns (processValues values)], [])
        else
          let all_values := findallVals insert_stmt
          let processed_statements := multiEmit table_name columns all_values
          if all_values.length > 1 ∧ processed_statements ≠ [] then
            (processed_statements, [])
          else
            ([mkInsert table_name columns
                (processValues (repairValues columns.length values))],
             [.countMismatch])

/-- Python `str.split('\n')`. -/
def splitNl (l : List Char) : List (List Char) :=
  match l with
  | [] => [[]]
  | c :: cs =>
    let rest := splitNl cs
    if c = '\n' then [] :: rest
    else
      match rest with
      | r :: rs => (c :: r) :: rs
      | [] => [[c]]

/-- The line-regrouping loop of `convert_insert` (lines 79–93): group
every line under the most recent line starting a new INSERT. -/
def regroupGo : List (List Char) → List Char → Bool → List (List Char) →
    List (List Char)
  | [], cur, inIns, acc => acc ++ (if inIns && cur ≠ [] then [cur] else [])
  | line :: rest, cur, inIns, acc =>
    if insertLineTest line then
      regroupGo rest line true (acc ++ (if inIns && cur ≠ [] then [cur] else []))
    else if inIns then
      regroupGo rest (cur ++ '\n' :: line) inIns acc
    else
      regroupGo rest cur inIns acc

/-- The `insert_statements` list built by `convert_insert`. -/
def regroupInserts (statement : List Char) : List (List Char) :=
  regroupGo (splitNl statement) [] false []

/-- `'\n'.join`. -/
def joinNl (xs : List (List Char)) : List Char :=
  match xs with
  | [] => []
  | x :: rest => x ++ (rest.map (fun y => '\n' :: y)).flatten

/-- `convert_insert` from the source: drop `SET IDENTITY_INSERT`
statements, regroup the physical INSERT lines, convert each, and join
the emitted statements with newlines; with no parseable INSERT line the
original statement is returned unchanged. -/
def convert_insert (statement : String) : String :=
  if hasSub "SET IDENTITY_INSERT".data (upperL statement.data) then ""
  else
    let insert_statements := regroupInserts statement.data
    if insert_statements = [] then statement
    else
      ⟨joinNl ((insert_statements.map (fun s => (processInsertStmt s).1)).flatten)⟩

/-! ## CREATE-TABLE converter -/

/-- One attempt of
`CREATE\s+TABLE\s+(?:\[dbo\]\.)?(?:\[)?([^\]]+)(?:\])?` (`re.IGNORECASE`),
returning group 1.  Nothing is required after the greedy group, so its
maximal run wins; the trailing optional `\]?` does not constrain it. -/
def ctNameAt (l : List Char) : Option (List Char) :=
  if isPreCI "CREATE".data l then
    firstSome (descSplits1 isPySpace (l.drop 6)) fun x₁ =>
      if isPreCI "TABLE".data x₁.2 then
        firstSome (descSplits1 isPySpace (x₁.2.drop 5)) fun x₂ =>
        firstSome (optLitCI "[dbo].".data x₂.2) fun r₃ =>
        firstSome (optLit "[".data r₃) fun r₄ =>
        match r₄.takeWhile (· ≠ ']') with
        | [] => none
        | g₁ :: gs => some (g₁ :: gs)
      else none
  else none

/-- `re.search` of the CREATE-TABLE name pattern. -/
def ctNameRe (l : List Char) : Option (List Char) := searchL ctNameAt l

/-- One attempt of `\((.*)\)\s*ON\s*\[PRIMARY\]`
(`re.IGNORECASE | re.DOTALL`): the greedy group runs to the last `)`
followed by `ON [PRIMARY]`. -/
def mainContentAt (l : List Char) : Option (List Char) :=
  match l with
  | '(' :: r₀ =>
    firstSome (descSplits (fun _ => true) r₀) fun x =>
      match x.2 with
      | ')' :: r₂ =>
        let r₃ := r₂.dropWhile isPySpace
        if isPreCI "ON".data r₃ then
          if isPreCI "[PRIMARY]".data ((r₃.drop 2).dropWhile isPySpace) then
            some x.1
          else none
        else none
      | _ => none
  | _ => none

/-- `re.search(r'\((.*)\)\s*ON\s*\[PRIMARY\]', ...)`. -/
def mainContentRe (l : List Char) : Option (List Char) := searchL mainContentAt l

/-- `$` of a pattern compiled without `re.MULTILINE`: end of string, or
just before a final newline. -/
def endDollar (l : List Char) : Bool := l = [] || l = ['\n']

/-- One attempt of the fallback pattern `\((.*?)\)(?:\s*GO)?$`
(`re.IGNORECASE | re.DOTALL`). -/
def fallbackAt (l : List Char) : Option (List Char) :=
  match l with
  | '(' :: r₀ =>
    firstSome (ascSplits (fun _ => true) r₀) fun x =>
      match x.2 with
      | ')' :: r₂ =>
        let r₃ := r₂.dropWhile isPySpace
        if isPreCI "GO".data r₃ && endDollar (r₃.drop 2) then some x.1
        else if endDollar r₂ then some x.1
        else none
      | _ => none
  | _ => none

/-- `re.search(r'\((.*?)\)(?:\s*GO)?$', ...)`. -/
def fallbackRe (l : List Char) : Option (List Char) := searchL fallbackAt l

/-- The common tail `\s*\(\s*\[?([^\]]+)\]?\s*(?:ASC|DESC)?\s*\)` of the
two primary-key patterns, returning group 1.  The group class `[^\]]+`
may contain whitespace and even `)`, so the group and the `\s*` before
it must backtrack. -/
def pkTailAt (r : List Char) : Option (List Char) :=
  match r.dropWhile isPySpace with
  | '(' :: r₁ =>
    firstSome (descSplits isPySpace r₁) fun x₂ =>
    firstSome (optLit "[".data x₂.2) fun r₃ =>
    firstSome (descSplits1 (· ≠ ']') r₃) fun x₄ =>
    firstSome (optLit "]".data x₄.2) fun r₅ =>
    let r₆ := r₅.dropWhile isPySpace
    firstSome ((if isPreCI "ASC".data r₆ then [r₆.drop 3] else []) ++
               (if isPreCI "DESC".data r₆ then [r₆.drop 4] else []) ++ [r₆]) fun r₇ =>
      match r₇.dropWhile isPySpace with
      | ')' :: _ => some x₄.1
      | _ => none
  | _ => none

/-- One attempt of
`PRIMARY\s+KEY\s+CLUSTERED\s*\(\s*\[?([^\]]+)\]?\s*(?:ASC|DESC)?\s*\)`
(`re.IGNORECASE`). -/
def pkClusteredAt (l : List Char) : Option (List Char) :=
  if isPreCI "PRIMARY".data l then
    (ws1 (l.drop 7)).bind fun r₁ =>
      if isPreCI "KEY".data r₁ then
        (ws1 (r₁.drop 3)).bind fun r₂ =>
          if isPreCI "CLUSTERED".data r₂ then pkTailAt (r₂.drop 9) else none
      else none
  else none

/-- `re.search` of the clustered primary-key pattern. -/
def pkClusteredRe (l : List Char) : Option (List Char) := searchL pkClusteredAt l

/-- One attempt of
`PRIMARY\s+KEY\s*\(\s*\[?([^\]]+)\]?\s*(?:ASC|DESC)?\s*\)`
(`re.IGNORECASE`). -/
def pkPlainAt (l : List Char) : Option (List Char) :=
  if isPreCI "PRIMARY".data l then
    (ws1 (l.drop 7)).bind fun r₁ =>
      if isPreCI "KEY".data r₁ then pkTailAt (r₁.drop 3) else none
  else none

/-- `re.search` of the plain primary-key pattern. -/
def pkPlainRe (l : List Char) : Option (List Char) := searchL pkPlainAt l

/-- `re.search(r'WITH\s*\(', definition, re.IGNORECASE)` as a test. -/
def hasWithParen (l : List Char) : Bool :=
  searchB (fun r =>
    isPreCI "WITH".data r &&
      (match (r.drop 4).dropWhile isPySpace with
       | '(' :: _ => true
       | _ => false)) l

/-- Characters consumed by `\s*\(\s*(\d+)(?:\s*,\s*\d+)?\s*\)` when it
matches at `r₀` (every quantifier here is forced, because each run is
followed by a character outside its class). -/
def typeSizeTail (r₀ : List Char) : Option Nat :=
  let w₁ := (r₀.takeWhile isPySpace).length
  match r₀.drop w₁ with
  | '(' :: r₂ =>
    let w₂ := (r₂.takeWhile isPySpace).length
    let d₁ := ((r₂.drop w₂).takeWhile isDigitC).length
    if d₁ = 0 then none
    else
      let r₃ := r₂.drop (w₂ + d₁)
      let optN : Option Nat :=
        let w₃ := (r₃.takeWhile isPySpace).length
        match r₃.drop w₃ with
        | ',' :: r₄ =>
          let w₄ := (r₄.takeWhile isPySpace).length
          let d₂ := ((r₄.drop w₄).takeWhile isDigitC).length
          if d₂ = 0 then none else some (w₃ + 1 + w₄ + d₂)
        | _ => none
      let finish : Nat → Option Nat := fun k =>
        let r₅ := r₃.drop k
        let w₅ := (r₅.takeWhile isPySpace).length
        match r₅.drop w₅ with
        | ')' :: _ => some (w₁ + 1 + w₂ + d₁ + k + w₅ + 1)
        | _ => none
      (match optN with
       | some k => finish k <|> finish 0
       | none => finish 0)
  | _ => none

/-- Word-boundary test for the position after `prev`. -/
def atBoundary : Option Char → Bool
  | none => true
  | some p => !isWordC p

/-- `re.search(r'\b' + key + r'(?:\s*\(\s*(\d+)(?:\s*,\s*\d+)?\s*\))?',
definition, re.IGNORECASE)`, returning group 0 (the matched text, in the
original case of the input). -/
def typePatSearch (key : List Char) : Option Char → List Char → Option (List Char)
  | _, [] => none
  | prev, c :: cs =>
    (if atBoundary prev && isPreCI key (c :: cs) then
       (match typeSizeTail ((c :: cs).drop key.length) with
        | some n => some ((c :: cs).take (key.length + n))
        | none => some ((c :: cs).take key.length))
     else none) <|> typePatSearch key (some c) cs

/-- The type-conversion loop (lines 324–331): the first mapping key whose
pattern matches has its matched text replaced (all occurrences) by
`convert_type_with_size` of that text, then the loop breaks. -/
def typeLoop : List (String × String) → List Char → List Char
  | [], d => d
  | (k, _) :: rest, d =>
    match typePatSearch k.data none d with
    | some old => replaceAllL old (convert_type_with_size ⟨old⟩).data d
    | none => typeLoop rest d

/-- Characters consumed by `IDENTITY\(\d+,\s*\d+\)` (`re.IGNORECASE`)
matching at `l` (all quantifiers forced). -/
def identityAt (l : List Char) : Option Nat :=
  if isPreCI "IDENTITY(".data l then
    let r₀ := l.drop 9
    let d₁ := (r₀.takeWhile isDigitC).length
    if d₁ = 0 then none
    else
      match r₀.drop d₁ with
      | ',' :: r₁ =>
        let w := (r₁.takeWhile isPySpace).length
        let d₂ := ((r₁.drop w).takeWhile isDigitC).length
        if d₂ = 0 then none
        else
          match r₁.drop (w + d₂) with
          | ')' :: _ => some (9 + d₁ + 1 + w + d₂ + 1)
          | _ => none
      | _ => none
  else none

/-- `re.sub(r'IDENTITY\(\d+,\s*\d+\)', 'SERIAL', ·, flags=re.IGNORECASE)`. -/
def identitySubFuel : Nat → List Char → List Char
  | 0, l => l
  | _ + 1, [] => []
  | fuel + 1, c :: cs =>
    match identityAt (c :: cs) with
    | some n => "SERIAL".data ++ identitySubFuel fuel ((c :: cs).drop n)
    | none => c :: identitySubFuel fuel cs

/-- The IDENTITY → SERIAL substitution (line 334). -/
def identitySub (l : List Char) : List Char := identitySubFuel l.length l

/-- Classification of one comma-terminated definition (lines 309–340):
clustered primary key, constraint primary key, `WITH (...)` clause, or a
column definition run through the type loop, the IDENTITY substitution
and `clean_identifier`.  Returns (column parts, primary-key columns). -/
def classifyDef (definition : List Char) : List (List Char) × List (List Char) :=
  match pkClusteredRe definition with
  | some col => ([], [cleanIdentL col])
  | none =>
    if hasSub "CONSTRAINT".data (upperL definition) &&
        hasSub "PRIMARY KEY".data (upperL definition) then
      match pkPlainRe definition with
      | some col => ([], [cleanIdentL col])
      | none => ([], [])
    else if !hasWithParen definition then
      let d₁ := typeLoop TYPE_MAPPING definition
      let d₂ := identitySub d₁
      let d₃ := cleanIdentL d₂
      (if d₃ ≠ [] then [d₃] else [], [])
    else ([], [])

/-- The character loop of `convert_create_table` (lines 300–341): split
the body at depth-0 commas, classifying each comma-terminated
definition; returns the parts, the primary-key columns, and the
unterminated trailing text. -/
def ctLoop : List Char → List (List Char) → List (List Char) → List Char → Int →
    List (List Char) × List (List Char) × List Char
  | [], parts, pk, cur, _ => (parts, pk, cur)
  | c :: cs, parts, pk, cur, bc =>
    if c = '(' then ctLoop cs parts pk (cur ++ [c]) (bc + 1)
    else if c = ')' then ctLoop cs parts pk (cur ++ [c]) (bc - 1)
    else if c = ',' ∧ bc = 0 then
      if rstripCommaL (stripL (cur ++ [c])) ≠ [] then
        ctLoop cs (parts ++ (classifyDef (rstripCommaL (stripL (cur ++ [c])))).1)
          (pk ++ (classifyDef (rstripCommaL (stripL (cur ++ [c])))).2) [] bc
      else ctLoop cs parts pk [] bc
    else ctLoop cs parts pk (cur ++ [c]) bc

/-- The handling of the final fragment (lines 343–347): after the loop a
nonempty stripped trailing text is checked only against `WITH (...)` and
appended through `clean_identifier` — no type mapping, no IDENTITY
substitution and no primary-key recognition are applied to it. -/
def trailingPart (cur : List Char) : List (List Char) :=
  if stripL cur ≠ [] then
    if !hasWithParen (stripL cur) then [cleanIdentL (stripL cur)] else []
  else []

/-- Parts and primary-key columns extracted from a CREATE-TABLE body. -/
def ctParts (content : List Char) : List (List Char) × List (List Char) :=
  let r := ctLoop content [] [] [] 0
  (r.1 ++ trailingPart r.2.2, r.2.1)

/-- `',\n    '.join`. -/
def joinDefs (xs : List (List Char)) : List Char :=
  match xs with
  | [] => []
  | x :: rest => x ++ (rest.map (fun y => ",\n    ".data ++ y)).flatten

/-- `convert_create_table` from the source. -/
def convert_create_table (statement : String) : String :=
  if isPre "USE".data (upperL statement.data) then ""
  else
    match ctNameRe statement.data with
    | none => statement
    | some tg =>
      let table_name := cleanIdentL tg
      match mainContentRe statement.data <|> fallbackRe statement.data with
      | none => statement
      | some content =>
        let pp := ctParts content
        let parts := pp.1 ++
          (if pp.2 ≠ [] then ["PRIMARY KEY (".data ++ joinCS pp.2 ++ [')']] else [])
        ⟨"CREATE TABLE ".data ++ table_name ++ " (\n    ".data ++
          joinDefs parts ++ "\n);".data⟩

/-! ## Statement splitter (convert_mssql_to_postgresql, lines 376–399) -/

/-- The scanner state of the in-batch statement split: accumulated
statements, the current statement text, and the quoted-string flag with
its active quote character. -/
structure SplitState where
  statements : List (List Char)
  current : List Char
  inString : Bool
  stringChar : Option Char
  deriving DecidableEq

/-- One character step of the in-batch statement split: quote characters
toggle the string state; a `;` outside a string terminates the current
statement (appended stripped when nonempty); everything else is
accumulated. -/
def splitStep (st : SplitState) (c : Char) : SplitState :=
  if (c = '\'' || c = '"') && (st.stringChar = none || some c = st.stringChar) then
    if !st.inString then
      { st with inString := true, stringChar := some c, current := st.current ++ [c] }
    else
      { st with inString := false, stringChar := none, current := st.current ++ [c] }
  else if c = ';' && !st.inString then
    if stripL (st.current ++ [c]) ≠ [] then
      { st with statements := st.statements ++ [stripL (st.current ++ [c])], current := [] }
    else
      { st with current := [] }
  else
    { st with current := st.current ++ [c] }

/-- The initial scanner state. -/
def splitInit : SplitState := ⟨[], [], false, none⟩

/-- The in-batch statement split: scan the block character by character
and emit a nonempty stripped trailing text as a final statement. -/
def splitStatements (block : String) : List String :=
  let st := block.data.foldl splitStep splitInit
  ((if stripL st.current ≠ [] then st.statements ++ [stripL st.current]
    else st.statements).map fun l => (⟨l⟩ : String))


/-- The top-level comma split of a CREATE-TABLE body, written as a
direct recursion: the comma-terminated pieces (each including its
terminating comma) and the trailing fragment after the last depth-0
comma. -/
def splitD0 : List Char → List Char → Int → List (List Char) × List Char
  | [], cur, _ => ([], cur)
  | c :: cs, cur, bc =>
    if c = '(' then splitD0 cs (cur ++ [c]) (bc + 1)
    else if c = ')' then splitD0 cs (cur ++ [c]) (bc - 1)
    else if c = ',' ∧ bc = 0 then
      ((cur ++ [c]) :: (splitD0 cs [] bc).1, (splitD0 cs [] bc).2)
    else splitD0 cs (cur ++ [c]) bc

/-- Column parts contributed by one comma-terminated piece: the full
classification (primary-key shapes, `WITH` check, type mapping,
IDENTITY substitution, normalization). -/
def pieceParts (piece : List Char) : List (List Char) :=
  if rstripCommaL (stripL piece) ≠ [] then
    (classifyDef (rstripCommaL (stripL piece))).1
  else []

/-- Primary-key columns contributed by one comma-terminated piece. -/
def piecePk (piece : List Char) : List (List Char) :=
  if rstripCommaL (stripL piece) ≠ [] then
    (classifyDef (rstripCommaL (stripL piece))).2
  else []

/-! ## Claims -/

/-- **C5** — The type mapper: `NVARCHAR(50)` maps to `VARCHAR(50)`,
`MONEY` maps to `DECIMAL(19,4)` (size ignored, the target already
carries parentheses), `TIMESTAMP` maps to `BYTEA`, and for every token
whose (uppercased) extracted base type has a parenthesis-free target
signature in the mapping table and a captured size, the result is the
target signature with `(size)` appended. -/
theorem c5_type_mapper_cases :
    convert_type_with_size "NVARCHAR(50)" = "VARCHAR(50)" ∧
    convert_type_with_size "MONEY" = "DECIMAL(19,4)" ∧
    convert_type_with_size "TIMESTAMP" = "BYTEA" ∧
    ∀ (token b s pg : String),
      extract_type_size token = (b, some s) →
      lookupTM b = some pg →
      pg.data.contains '(' = false →
      convert_type_with_size token = pg ++ "(" ++ s ++ ")" := by
  refine ⟨by decide, by decide, by decide, fun token b s pg hx hl hp => ?_⟩
  have hp' : '(' ∉ pg.data := by simpa using hp
  simp [convert_type_with_size, hx, hl, hp']

/-- Witness for C5: `NTEXT(5)` has base `NTEXT`, captured size `5` and a
bare target signature `TEXT`, so the result appends the size. -/
theorem c5_witness : convert_type_with_size "NTEXT(5)" = "TEXT" ++ "(" ++ "5" ++ ")" :=
  c5_type_mapper_cases.2.2.2 "NTEXT(5)" "NTEXT" "5" "TEXT" (by decide) (by decide) (by decide)

/-- **C10** — The schema-qualifier removal of `clean_identifier` matches
only the exact lowercase text `[dbo].`: `[dbo].[Name]` yields `name`,
while a qualifier in any other case (every case variant of `dbo` other
than the all-lowercase one) survives the first substitution and is
merely unbracketed and lowercased, e.g. `[DBO].[Name]` yields
`dbo.name`. -/
theorem c10_dbo_case_sensitivity :
    clean_identifier "[dbo].[Name]" = "name" ∧
    clean_identifier "[DBO].[Name]" = "dbo.name" ∧
    ∀ (c₁ c₂ c₃ : Char),
      (c₁ = 'd' ∨ c₁ = 'D') → (c₂ = 'b' ∨ c₂ = 'B') → (c₃ = 'o' ∨ c₃ = 'O') →
      ¬(c₁ = 'd' ∧ c₂ = 'b' ∧ c₃ = 'o') →
      clean_identifier ⟨'[' :: c₁ :: c₂ :: c₃ :: "].[Name]".data⟩ =
        ⟨lcChar c₁ :: lcChar c₂ :: lcChar c₃ :: ".name".data⟩ := by
  refine ⟨by decide, by decide, fun c₁ c₂ c₃ h₁ h₂ h₃ hne => ?_⟩
  rcases h₁ with h₁ | h₁ <;> rcases h₂ with h₂ | h₂ <;> rcases h₃ with h₃ | h₃ <;>
    subst h₁ <;> subst h₂ <;> subst h₃ <;>
    first
    | exact absurd (by decide) hne
    | decide

/-- Witness for C10: the all-uppercase qualifier `[DBO].` is not
removed. -/
theorem c10_witness :
    clean_identifier ⟨'[' :: 'D' :: 'B' :: 'O' :: "].[Name]".data⟩ =
      ⟨lcChar 'D' :: lcChar 'B' :: lcChar 'O' :: ".name".data⟩ :=
  c10_dbo_case_sensitivity.2.2 'D' 'B' 'O' (Or.inr rfl) (Or.inr rfl) (Or.inr rfl)
    (by decide)

/-- **C2** (counterexample) — On the spec's CREATE-TABLE scenario input
the converter does **not** return the claimed text: the `INT` keyword is
kept next to `SERIAL`, every column definition is lowercased by
`clean_identifier`, and the trailing `PRIMARY KEY CLUSTERED` definition
is never recognized (it is the final fragment, which skips the
primary-key classification). -/
theorem c2_counterexample :
    convert_create_table "CREATE TABLE [dbo].[Users] ( [Id] INT IDENTITY(1,1), [Name] NVARCHAR(50), PRIMARY KEY CLUSTERED ([Id] ASC) ) ON [PRIMARY];" ≠
      "CREATE TABLE users (\n    id SERIAL,\n    name VARCHAR(50),\n    PRIMARY KEY (id)\n);" := by
  decide

/-- **C2** (amended) — The actual output of the CREATE-TABLE converter
on the scenario input: `IDENTITY(1,1)` is replaced by `SERIAL` but `INT`
is kept, definitions are lowercased, and the trailing clustered
primary-key definition is emitted as an ordinary (normalized) column
definition instead of producing a `PRIMARY KEY (id)` clause. -/
theorem c2_actual_output :
    convert_create_table "CREATE TABLE [dbo].[Users] ( [Id] INT IDENTITY(1,1), [Name] NVARCHAR(50), PRIMARY KEY CLUSTERED ([Id] ASC) ) ON [PRIMARY];" =
      "CREATE TABLE users (\n    id int serial,\n    name varchar(50),\n    primary key clustered (id asc)\n);" := by
  decide

/-- `filterMap` preserves the length when the function returns `some` on
every element of the list. -/
theorem length_filterMap_of_no_drop {α β : Type} (f : α → Option β) :
    ∀ (l : List α), (∀ a ∈ l, f a ≠ none) → (l.filterMap f).length = l.length := by
  intro l h
  induction l with
  | nil => rfl
  | cons a as ih =>
    rw [List.filterMap_cons]
    cases hfa : f a with
    | none => exact absurd hfa (h a (List.mem_cons_self a as))
    | some b =>
      simp only [List.length_cons]
      rw [ih (fun x hx => h x (List.mem_cons_of_mem a hx))]

/-- The padding/truncation repair always restores the column count. -/
theorem repairValues_length (k : Nat) (values : List (List Char)) :
    (repairValues k values).length = k := by
  unfold repairValues
  split
  · rename_i h
    simp only [List.length_append, List.length_replicate]
    omega
  · split
    · rename_i h
      simp only [List.length_take]
      omega
    · omega

/-- **C1** (counterexample) — The emitted-count invariant fails on a
CAST-like fragment: on `INSERT INTO t (a) VALUES (CASTLE);` the single
field contains `CAST` but does not match the `CAST(value AS type)`
pattern, so its literal is silently dropped after the count check, and
the emitted statement has one column and zero value literals. -/
theorem c1_counterexample :
    processInsertStmt "INSERT INTO t (a) VALUES (CASTLE);".data =
      ([mkInsert "into t (a) values".data ["a".data] []], []) ∧
    (["a".data] : List (List Char)).length ≠ ([] : List (List Char)).length ∧
    convert_insert "INSERT INTO t (a) VALUES (CASTLE);" =
      "INSERT INTO into t (a) values (a) VALUES ();" := by
  refine ⟨by decide, by decide, by decide⟩

/-- **C1** (amended) — The emitted VALUES length equals the column count
except for malformed CAST fragments: in the single-tuple path, if no
repaired field is a `CAST`-containing fragment that fails the
`CAST(value AS type)` pattern (the only literal conversion that returns
nothing), the converted literal list has exactly the column count; and
in the multi-tuple branch every emitted statement is built from a
literal list whose length was checked against the column count. -/
theorem c1_emitted_counts :
    (∀ (cols fields : List (List Char)),
       (∀ v ∈ repairValues cols.length fields, processOneValue (stripL v) ≠ none) →
       (processValues (repairValues cols.length fields)).length = cols.length) ∧
    (∀ (table : List Char) (cols groups : List (List Char)) (stmt : List Char),
       stmt ∈ multiEmit table cols groups →
       ∃ pv, pv.length = cols.length ∧ stmt = mkInsert table cols pv) := by
  constructor
  · intro cols fields h
    unfold processValues
    rw [length_filterMap_of_no_drop _ _ h, repairValues_length]
  · intro table cols groups stmt hmem
    unfold multiEmit at hmem
    rw [List.mem_filterMap] at hmem
    obtain ⟨g, _, heq⟩ := hmem
    by_cases hl : (processValuesMulti (scanFields g)).length = cols.length
    · rw [if_pos hl] at heq
      exact ⟨_, hl, (Option.some_inj.mp heq).symm⟩
    · rw [if_neg hl] at heq
      cases heq

/-- Witness for C1: a concrete repaired field list with no CAST fragment
keeps the column count, and a concrete multi-tuple emission carries a
literal list of the column count. -/
theorem c1_witness :
    (processValues (repairValues ([['a']] : List (List Char)).length [['1'], ['2']])).length =
      ([['a']] : List (List Char)).length ∧
    ∃ pv, pv.length = ([['a']] : List (List Char)).length ∧
      mkInsert ['t'] [['a']] [['1']] = mkInsert ['t'] [['a']] pv :=
  ⟨c1_emitted_counts.1 [['a']] [['1'], ['2']] (by decide),
   c1_emitted_counts.2 ['t'] [['a']] [['1']]
     (mkInsert ['t'] [['a']] [['1']]) (by decide)⟩

/-- **C3** — On the spec's INSERT scenario input the converter returns
the empty string: the table-name pattern
`INSERT\s+(?:\[dbo\]\.)?(?:\[)?([^\]]+)(?:\])?\s*\(` has no provision
for the `INTO` keyword, and its group cannot span the `]` characters of
`[dbo].[Users]`, so the statement is dropped with a parse warning.  On
the `INTO`-less spelling the converter produces exactly the output the
claim expects, which shows the divergence is confined to the table-name
pattern. -/
theorem c3_insert_into_dropped :
    convert_insert "INSERT INTO [dbo].[Users] ([Id],[Name]) VALUES (1, N'Alice');" = "" ∧
    convert_insert "INSERT [dbo].[Users] ([Id],[Name]) VALUES (1, N'Alice');" =
      "INSERT INTO users (id, name) VALUES (1, 'Alice');" := by
  exact ⟨by decide, by decide⟩

/-- **C4** (counterexample) — On the standard multi-row syntax
`INSERT INTO t (a, b) VALUES (1, 'x'), (2, 'y');` — one INSERT header,
a column list of length 2, and two tuples of two fields each — the
converter emits **one** statement, not two: a single `VALUES` keyword
yields a single `re.findall` group, so the multi-tuple branch is never
taken; the greedy VALUES parse produces three mangled fields which are
truncated to two. -/
theorem c4_counterexample :
    (processInsertStmt "INSERT INTO t (a, b) VALUES (1, 'x'), (2, 'y');".data).1.length = 1 ∧
    convert_insert "INSERT INTO t (a, b) VALUES (1, 'x'), (2, 'y');" =
      "INSERT INTO into t (a, b) values (1, 'x'), (a, b) VALUES (1, 'x'), (2);" := by
  refine ⟨by decide, by decide⟩

/-- **C4** (amended) — The multi-tuple split requires one `VALUES`
keyword per tuple: for a statement whose table name, column list and
VALUES body all parse, whose initial greedy field scan disagrees with
the column count, and which contains exactly two `VALUES (...)` groups
whose field counts each equal the column count with no field dropped by
the malformed-CAST rule, the converter emits exactly two INSERT
statements, one per tuple, both with the same normalized column list. -/
theorem c4_two_values_groups
    (s tg colsStr vstr g₁ g₂ : List Char)
    (h₁ : tableInsRe s = some tg)
    (h₂ : colsRe s = some colsStr)
    (h₃ : valsRe s = some vstr)
    (h₄ : (scanFields vstr).length ≠ ((splitComma colsStr).map cleanIdentL).length)
    (h₅ : findallVals s = [g₁, g₂])
    (h₆ : (scanFields g₁).length = ((splitComma colsStr).map cleanIdentL).length)
    (h₇ : (scanFields g₂).length = ((splitComma colsStr).map cleanIdentL).length)
    (h₈ : ∀ v ∈ scanFields g₁ ++ scanFields g₂, processOneValue v ≠ none) :
    processInsertStmt s =
      ([mkInsert (cleanIdentL tg) ((splitComma colsStr).map cleanIdentL)
          (processValuesMulti (scanFields g₁)),
        mkInsert (cleanIdentL tg) ((splitComma colsStr).map cleanIdentL)
          (processValuesMulti (scanFields g₂))], []) := by
  have e₁ : (processValuesMulti (scanFields g₁)).length =
      ((splitComma colsStr).map cleanIdentL).length := by
    unfold processValuesMulti
    rw [length_filterMap_of_no_drop _ _
      (fun v hv => h₈ v (List.mem_append_left _ hv))]
    exact h₆
  have e₂ : (processValuesMulti (scanFields g₂)).length =
      ((splitComma colsStr).map cleanIdentL).length := by
    unfold processValuesMulti
    rw [length_filterMap_of_no_drop _ _
      (fun v hv => h₈ v (List.mem_append_right _ hv))]
    exact h₇
  unfold processInsertStmt
  rw [h₁]
  dsimp only
  rw [h₂]
  dsimp only
  rw [h₃]
  dsimp only
  rw [if_neg h₄, h₅]
  unfold multiEmit
  simp only [List.filterMap_cons, List.filterMap_nil, e₁, e₂, if_pos rfl, if_true]
  rw [if_pos ⟨by simp, by simp⟩]

/-- Witness for C4: a statement with two `VALUES (...)` groups of
matching field count is split into two INSERT statements sharing the
column list. -/
theorem c4_witness :
    processInsertStmt "INSERT INTO t (a, b) VALUES (1, 'x') VALUES (2, 'y');".data =
      ([mkInsert (cleanIdentL "INTO t (a, b) VALUES (1, 'x') VALUES ".data)
          ((splitComma "a, b".data).map cleanIdentL)
          (processValuesMulti (scanFields "1, 'x'".data)),
        mkInsert (cleanIdentL "INTO t (a, b) VALUES (1, 'x') VALUES ".data)
          ((splitComma "a, b".data).map cleanIdentL)
          (processValuesMulti (scanFields "2, 'y'".data))], []) :=
  c4_two_values_groups "INSERT INTO t (a, b) VALUES (1, 'x') VALUES (2, 'y');".data
    "INTO t (a, b) VALUES (1, 'x') VALUES ".data "a, b".data
    "1, 'x') VALUES (2, 'y'".data "1, 'x'".data "2, 'y'".data
    (by decide) (by decide) (by decide) (by decide)
    (by decide) (by decide) (by decide) (by decide)

/-- **C7** — A single-tuple INSERT whose field count disagrees with the
column count records a count-mismatch warning and still emits one
statement, built from the repaired field list, which pads with `NULL`
literals when short and truncates to the column count when long. -/
theorem c7_count_mismatch_repair
    (s tg colsStr vstr : List Char)
    (h₁ : tableInsRe s = some tg)
    (h₂ : colsRe s = some colsStr)
    (h₃ : valsRe s = some vstr)
    (h₄ : (scanFields vstr).length ≠ ((splitComma colsStr).map cleanIdentL).length)
    (h₅ : (findallVals s).length = 1) :
    processInsertStmt s =
      ([mkInsert (cleanIdentL tg) ((splitComma colsStr).map cleanIdentL)
          (processValues (repairValues ((splitComma colsStr).map cleanIdentL).length
            (scanFields vstr)))],
       [Warn.countMismatch]) ∧
    (repairValues ((splitComma colsStr).map cleanIdentL).length (scanFields vstr)).length =
      ((splitComma colsStr).map cleanIdentL).length ∧
    ((scanFields vstr).length < ((splitComma colsStr).map cleanIdentL).length →
      repairValues ((splitComma colsStr).map cleanIdentL).length (scanFields vstr) =
        scanFields vstr ++
          List.replicate
            (((splitComma colsStr).map cleanIdentL).length - (scanFields vstr).length)
            ("NULL".data)) ∧
    (((splitComma colsStr).map cleanIdentL).length < (scanFields vstr).length →
      repairValues ((splitComma colsStr).map cleanIdentL).length (scanFields vstr) =
        (scanFields vstr).take ((splitComma colsStr).map cleanIdentL).length) := by
  refine ⟨?_, repairValues_length _ _, ?_, ?_⟩
  · unfold processInsertStmt
    rw [h₁]
    dsimp only
    rw [h₂]
    dsimp only
    rw [h₃]
    dsimp only
    rw [if_neg h₄, if_neg]
    intro hc
    rw [h₅] at hc
    exact absurd hc.1 (by omega)
  · intro hlt
    unfold repairValues
    rw [if_pos hlt]
  · intro hgt
    unfold repairValues
    rw [if_neg (by omega), if_pos hgt]

/-- Witness for C7: two fields against three columns are padded with one
`NULL` and emitted with a warning. -/
theorem c7_witness :
    processInsertStmt "INSERT [T] ([a],[b],[c]) VALUES (1, N'x');".data =
      ([mkInsert (cleanIdentL "T".data)
          ((splitComma "[a],[b],[c]".data).map cleanIdentL)
          (processValues (repairValues
            ((splitComma "[a],[b],[c]".data).map cleanIdentL).length
            (scanFields "1, N'x'".data)))],
       [Warn.countMismatch]) :=
  (c7_count_mismatch_repair "INSERT [T] ([a],[b],[c]) VALUES (1, N'x');".data
    "T".data "[a],[b],[c]".data "1, N'x'".data
    (by decide) (by decide) (by decide) (by decide) (by decide)).1

/-- **C8** — In the in-batch statement split, a `;` scanned while the
inside-quoted-string flag is set only extends the current statement: the
statement list and the string state are untouched and the current text
is not reset.  And a block whose final scanner state holds nonempty
stripped trailing text emits that text as a final statement. -/
theorem c8_split_semicolon_in_string :
    (∀ (st : SplitState), st.inString = true →
       splitStep st ';' = { st with current := st.current ++ [';'] }) ∧
    (∀ (block : String),
       stripL (block.data.foldl splitStep splitInit).current ≠ [] →
       splitStatements block =
         ((block.data.foldl splitStep splitInit).statements ++
           [stripL (block.data.foldl splitStep splitInit).current]).map
           (fun l => (⟨l⟩ : String))) := by
  constructor
  · intro st h
    simp [splitStep, h]
  · intro block h
    unfold splitStatements
    dsimp only
    rw [if_pos h]

/-- Witness for C8: a `;` inside an open single-quoted string is
absorbed into the current statement, and a block with unterminated
trailing text still emits it. -/
theorem c8_witness :
    splitStep ⟨[], ['x'], true, some '\''⟩ ';' =
      { (⟨[], ['x'], true, some '\''⟩ : SplitState) with current := ['x'] ++ [';'] } ∧
    splitStatements "INSERT ('a;b'); x" =
      (("INSERT ('a;b'); x".data.foldl splitStep splitInit).statements ++
        [stripL ("INSERT ('a;b'); x".data.foldl splitStep splitInit).current]).map
        (fun l => (⟨l⟩ : String)) :=
  ⟨c8_split_semicolon_in_string.1 ⟨[], ['x'], true, some '\''⟩ rfl,
   c8_split_semicolon_in_string.2 "INSERT ('a;b'); x" (by decide)⟩

/-- The CREATE-TABLE character loop is the composition of the top-level
comma split with the per-piece classification; the trailing fragment is
passed through untouched. -/
theorem ctLoop_decomp (content : List Char) :
    ∀ (parts pk : List (List Char)) (cur : List Char) (bc : Int),
      ctLoop content parts pk cur bc =
        (parts ++ ((splitD0 content cur bc).1.map pieceParts).flatten,
         pk ++ ((splitD0 content cur bc).1.map piecePk).flatten,
         (splitD0 content cur bc).2) := by
  induction content with
  | nil =>
    intro parts pk cur bc
    simp [ctLoop, splitD0]
  | cons c cs ih =>
    intro parts pk cur bc
    unfold ctLoop splitD0
    by_cases h₁ : c = '('
    · rw [if_pos h₁, if_pos h₁, ih]
    · rw [if_neg h₁, if_neg h₁]
      by_cases h₂ : c = ')'
      · rw [if_pos h₂, if_pos h₂, ih]
      · rw [if_neg h₂, if_neg h₂]
        by_cases h₃ : c = ',' ∧ bc = 0
        · rw [if_pos h₃, if_pos h₃]
          by_cases h₄ : rstripCommaL (stripL (cur ++ [c])) ≠ []
          · rw [if_pos h₄, ih]
            simp [pieceParts, piecePk, h₄]
          · rw [if_neg h₄, ih]
            simp [pieceParts, piecePk, h₄]
        · rw [if_neg h₃, if_neg h₃, ih]

/-- **C9** — The fragment after the last depth-0 comma of a CREATE-TABLE
body is handled by `trailingPart` alone — only the `WITH (...)` check
and `clean_identifier` normalization, with no type mapping, no IDENTITY
substitution and no primary-key recognition — while every
comma-terminated piece before it goes through the full classification
(`pieceParts`/`piecePk`), which is also the only source of primary-key
columns.  Concretely, a trailing `[B] MONEY` keeps its type lowercased
while a comma-terminated `[A] MONEY` becomes `DECIMAL(19,4)`, and a
trailing `PRIMARY KEY CLUSTERED` definition is emitted as an ordinary
normalized column instead of being recorded as a primary key. -/
theorem c9_trailing_definition :
    (∀ content : List Char,
       ctParts content =
         (((splitD0 content [] 0).1.map pieceParts).flatten ++
            trailingPart (splitD0 content [] 0).2,
          ((splitD0 content [] 0).1.map piecePk).flatten)) ∧
    ctParts "[A] MONEY, [B] MONEY".data =
      (["a decimal(19,4)".data, "b money".data], []) ∧
    ctParts "PRIMARY KEY CLUSTERED ([I] ASC), PRIMARY KEY CLUSTERED ([J] ASC)".data =
      (["primary key clustered (j asc)".data], ["i".data]) := by
  refine ⟨fun content => ?_, by decide, by decide⟩
  unfold ctParts
  rw [ctLoop_decomp]
  simp

/-! ## Idempotence of identifier normalization (C6) -/

/-- `Char.ofNat` of a valid code point keeps its code. -/
theorem toNat_ofNat_valid (n : Nat) (h : n.isValidChar) : (Char.ofNat n).toNat = n := by
  unfold Char.ofNat
  rw [dif_pos h]
  rfl

/-- The code of `lcChar`: shifted by 32 on A–Z, unchanged elsewhere. -/
theorem lcChar_toNat (c : Char) :
    (lcChar c).toNat = if 65 ≤ c.toNat ∧ c.toNat ≤ 90 then c.toNat + 32 else c.toNat := by
  unfold lcChar
  by_cases h : 65 ≤ c.toNat ∧ c.toNat ≤ 90
  · rw [if_pos h, if_pos h, toNat_ofNat_valid _ (Or.inl (by omega))]
  · rw [if_neg h, if_neg h]

/-- `lcChar` fixes every character outside A–Z. -/
theorem lcChar_eq_self (c : Char) (h : ¬(65 ≤ c.toNat ∧ c.toNat ≤ 90)) : lcChar c = c := by
  unfold lcChar
  rw [if_neg h]

/-- `lcChar` is idempotent. -/
theorem lcChar_idem (c : Char) : lcChar (lcChar c) = lcChar c := by
  by_cases h : 65 ≤ c.toNat ∧ c.toNat ≤ 90
  · apply lcChar_eq_self
    rw [lcChar_toNat, if_pos h]
    omega
  · rw [lcChar_eq_self c h, lcChar_eq_self c h]

/-- Characters with code at least 33 are not Python whitespace. -/
theorem isPySpace_eq_false_of_ge (d : Char) (hd : 33 ≤ d.toNat) : isPySpace d = false := by
  unfold isPySpace
  simp only [Bool.or_eq_false_iff, decide_eq_false_iff_not]
  refine ⟨⟨⟨⟨⟨?_, ?_⟩, ?_⟩, ?_⟩, ?_⟩, ?_⟩ <;>
    (intro e; rw [e] at hd; exact absurd hd (by decide))

/-- Lowercasing does not change whitespace-ness. -/
theorem isPySpace_lcChar (c : Char) : isPySpace (lcChar c) = isPySpace c := by
  by_cases h : 65 ≤ c.toNat ∧ c.toNat ≤ 90
  · rw [isPySpace_eq_false_of_ge c (by omega), isPySpace_eq_false_of_ge]
    rw [lcChar_toNat, if_pos h]
    omega
  · rw [lcChar_eq_self c h]

/-- `lcChar` neither produces nor destroys a left bracket. -/
theorem lcChar_eq_bracket_iff (c : Char) : lcChar c = '[' ↔ c = '[' := by
  by_cases h : 65 ≤ c.toNat ∧ c.toNat ≤ 90
  · constructor
    · intro e
      have he : (lcChar c).toNat = '['.toNat := by rw [e]
      rw [lcChar_toNat, if_pos h] at he
      have h91 : '['.toNat = 91 := rfl
      omega
    · intro e
      rw [e] at h
      exact absurd h (by decide)
  · rw [lcChar_eq_self c h]

/-- Membership in the stripped list implies membership in the list. -/
theorem mem_of_mem_stripL {c : Char} {l : List Char} (h : c ∈ stripL l) : c ∈ l := by
  unfold stripL at h
  rw [List.mem_reverse] at h
  have h₁ := (List.dropWhile_sublist (p := isPySpace)).subset h
  rw [List.mem_reverse] at h₁
  exact (List.dropWhile_sublist (p := isPySpace)).subset h₁

/-- The `[dbo].` substitution fixes any text without a left bracket. -/
theorem replaceAllFuel_dbo_id (fuel : Nat) :
    ∀ l : List Char, '[' ∉ l → replaceAllFuel "[dbo].".data [] fuel l = l := by
  induction fuel with
  | zero => intro l _; rfl
  | succ n ih =>
    intro l hl
    cases l with
    | nil => rfl
    | cons c cs =>
      unfold replaceAllFuel
      rw [if_neg, ih cs fun hm => hl (List.mem_cons_of_mem c hm)]
      rintro ⟨-, hp⟩
      have hc : '[' = c := by
        have hp' : isPre "[dbo].".data (c :: cs) = true := hp
        rw [show "[dbo].".data = '[' :: "dbo].".data from rfl] at hp'
        unfold isPre at hp'
        rw [Bool.and_eq_true] at hp'
        exact of_decide_eq_true hp'.1
      exact hl (List.mem_cons.mpr (Or.inl hc))

/-- The bracket substitution fixes any text without a left bracket. -/
theorem bracketSubFuel_id (fuel : Nat) :
    ∀ l : List Char, '[' ∉ l → bracketSubFuel fuel l = l := by
  induction fuel with
  | zero => intro l _; rfl
  | succ n ih =>
    intro l hl
    cases l with
    | nil => rfl
    | cons c cs =>
      unfold bracketSubFuel
      rw [if_neg fun hc => hl (List.mem_cons.mpr (Or.inl hc.symm)),
        ih cs fun hm => hl (List.mem_cons_of_mem c hm)]

/-- On bracket-free input, `clean_identifier` is just strip-then-lower. -/
theorem cleanIdentL_no_bracket {l : List Char} (h : '[' ∉ l) :
    cleanIdentL l = lowerL (stripL l) := by
  unfold cleanIdentL
  dsimp only
  rw [show replaceAllL "[dbo].".data [] l = replaceAllFuel "[dbo].".data [] l.length l from rfl,
    replaceAllFuel_dbo_id l.length l h,
    show bracketSubL l = bracketSubFuel l.length l from rfl,
    bracketSubFuel_id l.length l h]

/-- `dropWhile` is idempotent. -/
theorem dropWhile_idem (p : Char → Bool) (l : List Char) :
    (l.dropWhile p).dropWhile p = l.dropWhile p := by
  induction l with
  | nil => rfl
  | cons c cs ih =>
    rw [List.dropWhile_cons]
    by_cases h : p c
    · rw [if_pos h, ih]
    · rw [if_neg h, List.dropWhile_cons, if_neg h]

/-- A prefix of a list that `dropWhile` fixes is itself fixed. -/
theorem dropWhile_eq_self_of_isPrefix {p : Char → Bool} {A B : List Char}
    (hA : A.dropWhile p = A) (hB : B <+: A) : B.dropWhile p = B := by
  cases B with
  | nil => rfl
  | cons b bs =>
    obtain ⟨t, ht⟩ := hB
    have hpb : ¬ p b = true := by
      intro hb
      rw [← ht, List.cons_append, List.dropWhile_cons, if_pos hb] at hA
      have hlen := congrArg List.length hA
      have hle : ((bs ++ t).dropWhile p).length ≤ (bs ++ t).length :=
        (List.dropWhile_sublist (p := p)).length_le
      rw [List.length_cons] at hlen
      omega
    rw [List.dropWhile_cons, if_neg hpb]

/-- Stripping is idempotent. -/
theorem stripL_idem (l : List Char) : stripL (stripL l) = stripL l := by
  have hAA : (l.dropWhile isPySpace).dropWhile isPySpace = l.dropWhile isPySpace :=
    dropWhile_idem _ _
  have hpre : stripL l <+: l.dropWhile isPySpace := by
    unfold stripL
    conv_rhs => rw [← List.reverse_reverse (l.dropWhile isPySpace)]
    exact List.reverse_prefix.mpr (List.dropWhile_suffix _)
  have h₁ : (stripL l).dropWhile isPySpace = stripL l :=
    dropWhile_eq_self_of_isPrefix hAA hpre
  show (((stripL l).dropWhile isPySpace).reverse.dropWhile isPySpace).reverse = stripL l
  rw [h₁]
  have h₂ : (stripL l).reverse = (l.dropWhile isPySpace).reverse.dropWhile isPySpace := by
    unfold stripL
    rw [List.reverse_reverse]
  rw [h₂, dropWhile_idem, ← h₂, List.reverse_reverse]

/-- Lowercasing is idempotent. -/
theorem lowerL_idem (l : List Char) : lowerL (lowerL l) = lowerL l := by
  unfold lowerL
  rw [List.map_map]
  exact List.map_congr_left fun c _ => lcChar_idem c

/-- Stripping commutes with lowercasing. -/
theorem stripL_lowerL (l : List Char) : stripL (lowerL l) = lowerL (stripL l) := by
  have hpf : isPySpace ∘ lcChar = isPySpace := funext isPySpace_lcChar
  unfold stripL lowerL
  rw [List.dropWhile_map, hpf, ← List.map_reverse, List.dropWhile_map, hpf,
    ← List.map_reverse]

/-- **C6** (counterexample) — `clean_identifier` is not idempotent: on
`[[a]]` the bracket pattern consumes `[[a]` (the group being `[a`),
yielding `[a]`, and a second application yields `a`. -/
theorem c6_counterexample :
    clean_identifier (clean_identifier "[[a]]") ≠ clean_identifier "[[a]]" ∧
    clean_identifier "[[a]]" = "[a]" ∧ clean_identifier "[a]" = "a" := by
  refine ⟨by decide, by decide, by decide⟩

/-- **C6** (amended) — `clean_identifier` is idempotent on every input
without a left bracket (the counterexamples all need a `[` that
survives the first pass): for such inputs both substitutions are the
identity and strip-then-lowercase is idempotent. -/
theorem c6_idempotent_no_bracket (s : String) (h : '[' ∉ s.data) :
    clean_identifier (clean_identifier s) = clean_identifier s := by
  have h₁ : cleanIdentL s.data = lowerL (stripL s.data) := cleanIdentL_no_bracket h
  have h₂ : '[' ∉ lowerL (stripL s.data) := by
    intro hm
    unfold lowerL at hm
    rw [List.mem_map] at hm
    obtain ⟨c, hc, he⟩ := hm
    have hcb : c = '[' := (lcChar_eq_bracket_iff c).mp he
    subst hcb
    exact h (mem_of_mem_stripL hc)
  show (⟨cleanIdentL (cleanIdentL s.data)⟩ : String) = ⟨cleanIdentL s.data⟩
  apply congrArg fun d => (⟨d⟩ : String)
  rw [h₁, cleanIdentL_no_bracket h₂, stripL_lowerL, lowerL_idem, stripL_idem]

/-- Witness for C6: idempotence at a bracket-free identifier. -/
theorem c6_witness :
    clean_identifier (clean_identifier "  UserName  ") = clean_identifier "  UserName  " :=
  c6_idempotent_no_bracket "  UserName  " (by decide)

end MsPg
